import Mathlib

/-!
Verification of the agent-tool orchestration and media-caching subsystem of a
web chat application. Each definition is a shallow embedding of a function of
the TypeScript source; effectful calls (database, HTTP fetch, hosted model)
are parameters supplied by an explicit environment value. JS strings are
modelled by Lean strings, byte buffers by lists of naturals below 256, and
nullable JS values by Option.
-/

/-! ## In-process image cache (src/lib/images/cache.ts)

The module keeps a process-wide Map from generated ids to binary entries.
`cacheDataUrl` matches its argument against the anchored regex
data colon, capture of one-or-more non-semicolon chars, the literal
";base64," (all case-insensitive), and a final nonempty capture of
dot-chars (no line terminators), then decodes the second capture with
Node's lenient base64 decoder and stores the entry under a fresh random
UUID. The fresh id is passed here as an explicit argument. -/

structure ImageEntry where
  data : List Nat
  contentType : String
deriving DecidableEq, Repr

/-- The process-wide Map of the cache module, as an association list;
JS Map.set replaces an existing binding and otherwise appends. -/
abbrev ImageCache := List (String × ImageEntry)

def cacheSet (c : ImageCache) (k : String) (v : ImageEntry) : ImageCache :=
  if c.any (fun p => p.1 = k) then
    c.map (fun p => if p.1 = k then (k, v) else p)
  else
    c ++ [(k, v)]

def cacheFind (c : ImageCache) (k : String) : Option ImageEntry :=
  (c.find? (fun p => p.1 = k)).map (fun p => p.2)

/-- Case-insensitive literal matcher: consumes the pattern from the front of
the input, returning the remainder (models a case-insensitive regex literal). -/
def chompLitCI : List Char → List Char → Option (List Char)
  | [], cs => some cs
  | _ :: _, [] => none
  | p :: ps, c :: cs => if p.toLower = c.toLower then chompLitCI ps cs else none

/-- JS regex line terminators, which the dot never matches. -/
def isLineTerm (c : Char) : Bool :=
  c = '\n' || c = '\r' || c.val = 0x2028 || c.val = 0x2029

/-- The anchored data-URL regex of the cache module. The one-or-more
non-semicolon capture is forced (by the following literal) to stop at the
first semicolon, so no backtracking arises; the final capture must be
nonempty and free of line terminators, and the match is anchored at both
ends. Returns (contentType capture, base64 capture). -/
def matchImageDataUrl (s : String) : Option (String × String) :=
  match chompLitCI "data:".data s.data with
  | none => none
  | some rest =>
    let ct := rest.takeWhile (fun c => c ≠ ';')
    if ct.isEmpty then none
    else
      match chompLitCI ";base64,".data (rest.dropWhile (fun c => c ≠ ';')) with
      | none => none
      | some body =>
        if body.isEmpty then none
        else if body.any isLineTerm then none
        else some (String.mk ct, String.mk body)

/-- Value of a base64 alphabet character; Node additionally accepts the
URL-safe alphabet. -/
def base64Val (c : Char) : Option Nat :=
  if 65 ≤ c.toNat ∧ c.toNat ≤ 90 then some (c.toNat - 65)
  else if 97 ≤ c.toNat ∧ c.toNat ≤ 122 then some (c.toNat - 97 + 26)
  else if 48 ≤ c.toNat ∧ c.toNat ≤ 57 then some (c.toNat - 48 + 52)
  else if c = '+' ∨ c = '-' then some 62
  else if c = '/' ∨ c = '_' then some 63
  else none

def base64Alphabet : String :=
  "ABCDEFGHIJKLMNOPQRSTUVWXYZabcdefghijklmnopqrstuvwxyz0123456789+/"

def base64Char (n : Nat) : Char := base64Alphabet.data.getD n ' '

/-- Bytes of a list of 6-bit groups; a trailing group of two or three values
contributes one or two bytes, a lone value contributes nothing. -/
def decodeGroups : List Nat → List Nat
  | a :: b :: c :: d :: rest =>
      (a * 4 + b / 16) :: ((b % 16) * 16 + c / 4) :: ((c % 4) * 64 + d) :: decodeGroups rest
  | [a, b] => [a * 4 + b / 16]
  | [a, b, c] => [a * 4 + b / 16, (b % 16) * 16 + c / 4]
  | _ => []

/-- Node Buffer.from(s, base64): total and lenient — decoding stops at the
first padding character and skips characters outside the (URL-safe extended)
alphabet; it never throws for a string argument. -/
def nodeBase64Decode (s : String) : List Nat :=
  decodeGroups (((s.data.takeWhile (fun c => c ≠ '=')).filterMap base64Val))

/-- Canonical base64 encoding (with padding) of a byte list, used to state
round-trip properties about well-formed payloads. -/
def encodeBase64Chars : List Nat → List Char
  | [] => []
  | [x] => [base64Char (x / 4), base64Char (x % 4 * 16), '=', '=']
  | [x, y] => [base64Char (x / 4), base64Char (x % 4 * 16 + y / 16), base64Char (y % 16 * 4), '=']
  | x :: y :: z :: rest =>
      base64Char (x / 4) :: base64Char (x % 4 * 16 + y / 16) ::
      base64Char (y % 16 * 4 + z / 64) :: base64Char (z % 64) :: encodeBase64Chars rest

def encodeBase64 (bs : List Nat) : String := String.mk (encodeBase64Chars bs)

/-- cacheDataUrl of the cache module. `freshId` stands for the
randomUUID() call; `cache` is the module-level Map. Returns the id result
and the updated cache. The catch branch of the source is unreachable for
string input because Node's base64 decoder is total, so a non-null result
is returned exactly when the regex matches. -/
def cacheDataUrl (freshId : String) (cache : ImageCache) (dataUrl : String) :
    Option String × ImageCache :=
  match matchImageDataUrl dataUrl with
  | none => (none, cache)
  | some (contentType, base64) =>
    let data := nodeBase64Decode base64
    let entry : ImageEntry :=
      { data := data
        contentType := if contentType = "" then "application/octet-stream" else contentType }
    (some freshId, cacheSet cache freshId entry)

/-- getCachedImage of the cache module: pure lookup. -/
def getCachedImage (cache : ImageCache) (id : String) : Option ImageEntry :=
  cacheFind cache id

/-! ## Event relay (src/lib/agent/events.ts)

A process-global EventEmitter keyed by conversation id. `emitAgentEvent`
synchronously invokes every listener currently registered for that id;
`sseSubscribe` registers a listener that appends each delivered event to the
connection's stream, and deregisters it (idempotently) on cancel. The state
below records, per connection, the chat id it listens on, whether its
cleanup ran, and the events delivered to it tagged with a global publish
sequence number (publishes are totally ordered within one emitter). -/

structure RelaySub (E : Type) where
  connId : Nat
  chatId : String
  closed : Bool
  received : List (Nat × E)
deriving DecidableEq, Repr

structure RelayState (E : Type) where
  subs : List (RelaySub E)
  pubSeq : Nat
deriving DecidableEq, Repr

inductive RelayOp (E : Type) where
  | subscribe (connId : Nat) (chatId : String)
  | publish (chatId : String) (ev : E)
  | cancel (connId : Nat)
deriving DecidableEq, Repr

/-- One relay transition: subscribing registers a fresh open listener with
no delivered events; publishing delivers the event (tagged with the current
sequence number) to every open listener on that chat id and to no one else,
buffering nothing; cancelling runs the idempotent cleanup, which only
deregisters the listener. -/
def relayStep {E : Type} (s : RelayState E) : RelayOp E → RelayState E
  | .subscribe c cid => { s with subs := s.subs ++ [⟨c, cid, false, []⟩] }
  | .publish cid ev =>
      { subs := s.subs.map fun sub =>
          if sub.chatId = cid ∧ sub.closed = false then
            { sub with received := sub.received ++ [(s.pubSeq, ev)] }
          else sub
        pubSeq := s.pubSeq + 1 }
  | .cancel c =>
      { s with subs := s.subs.map fun sub =>
          if sub.connId = c then { sub with closed := true } else sub }

def relayRun {E : Type} (s : RelayState E) (ops : List (RelayOp E)) : RelayState E :=
  ops.foldl relayStep s

/-- The listener registered for a connection id, if any. -/
def findSub {E : Type} (s : RelayState E) (c : Nat) : Option (RelaySub E) :=
  s.subs.find? (fun sub => sub.connId == c)

/-- The transient AgentEvent union of the events module; the untyped args
record is carried as its serialized JSON text. -/
inductive AgentEventM where
  | toolStart (name : Option String) (args : Option String) (ts : Option Nat)
  | toolResult (name : Option String) (images : Option (List String))
      (text : Option String) (error : Option String)
      (durationMs : Option Nat) (ts : Option Nat)
  | final (text : Option String) (ts : Option Nat)
deriving DecidableEq, Repr

/-! ## Google OAuth token handling (src/lib/google/oauth.ts)

Timestamps are milliseconds since the epoch as integers. The user row holds
the four Google token columns of the users table; the refresh environment
supplies the two client-credential env vars and the outcome of the POST to
the token endpoint (an error carries the non-ok response text, a success
carries the parsed JSON body). All errors raised by this module are
GoogleAuthError values. -/

def TOKEN_REFRESH_BUFFER_MS : Int := 2 * 60 * 1000

structure GoogleTokenRow where
  id : String
  googleAccessToken : Option String
  googleRefreshToken : Option String
  googleTokenExpiresAt : Option Int
  googleScopes : Option String
deriving DecidableEq, Repr

structure GoogleCredentials where
  accessToken : Option String
  refreshToken : Option String
  expiresAt : Option Int
  scopes : Option String
deriving DecidableEq, Repr

inductive OAuthError where
  | googleAuth (message : String)
deriving DecidableEq, Repr

structure GoogleTokenResponse where
  access_token : String
  expires_in : Option Int
  scope : Option String
  refresh_token : Option String
deriving DecidableEq, Repr

structure RefreshEnv where
  clientId : Option String
  clientSecret : Option String
  response : Except String GoogleTokenResponse
deriving Repr

/-- Credentials view of a user row (getGoogleCredentialsForUser). -/
def credentialsOfRow (row : GoogleTokenRow) : GoogleCredentials :=
  { accessToken := row.googleAccessToken
    refreshToken := row.googleRefreshToken
    expiresAt := row.googleTokenExpiresAt
    scopes := row.googleScopes }

/-- tokenIsExpiringSoon: a missing expiry is treated as not expiring. -/
def tokenIsExpiringSoon (now : Int) (expiresAt : Option Int) : Bool :=
  match expiresAt with
  | none => false
  | some e => decide (e ≤ now + TOKEN_REFRESH_BUFFER_MS)

/-- refreshGoogleAccessToken: requires a stored refresh token and both
client env vars, posts to the token endpoint, and on success writes the new
access token, (possibly rotated) refresh token, computed expiry and scopes
back onto the user row before returning them. A zero or absent expires_in
is falsy in JS and yields a null stored expiry. -/
def refreshGoogleAccessToken (now : Int) (env : RefreshEnv) (row : GoogleTokenRow) :
    Except OAuthError (GoogleTokenRow × GoogleCredentials) :=
  match row.googleRefreshToken with
  | none => .error (.googleAuth "Google account is missing a refresh token. Please reconnect.")
  | some rtok =>
    match env.clientId with
    | none => .error (.googleAuth "GOOGLE_CLIENT_ID is not configured.")
    | some _ =>
      match env.clientSecret with
      | none => .error (.googleAuth "GOOGLE_CLIENT_SECRET is not configured.")
      | some _ =>
        match env.response with
        | .error errorText =>
            .error (.googleAuth ("Failed to refresh Google token: " ++ errorText))
        | .ok body =>
          let expiresAt : Option Int :=
            match body.expires_in with
            | none => none
            | some d => if d = 0 then none else some (now + d * 1000)
          let nextRefreshToken := body.refresh_token.getD rtok
          let nextScopes :=
            match body.scope with
            | some s => some s
            | none => row.googleScopes
          let newRow : GoogleTokenRow :=
            { row with
                googleAccessToken := some body.access_token
                googleRefreshToken := some nextRefreshToken
                googleTokenExpiresAt := expiresAt
                googleScopes := nextScopes }
          .ok (newRow,
            { accessToken := some body.access_token
              refreshToken := some nextRefreshToken
              expiresAt := expiresAt
              scopes := nextScopes })

/-- getValidGoogleAccessToken: the row option models the database read for
the user id. The first component of a successful result is the persisted
row update (none when no write happened). -/
def getValidGoogleAccessToken (now : Int) (env : RefreshEnv) (rowOpt : Option GoogleTokenRow) :
    Except OAuthError (Option GoogleTokenRow × GoogleCredentials) :=
  match rowOpt with
  | none => .error (.googleAuth "User record not found.")
  | some row =>
    let credentials := credentialsOfRow row
    match credentials.accessToken with
    | none => .error (.googleAuth "Google Calendar access is not configured for this account.")
    | some _ =>
      if tokenIsExpiringSoon now credentials.expiresAt then
        match refreshGoogleAccessToken now env row with
        | .error e => .error e
        | .ok (newRow, creds) => .ok (some newRow, creds)
      else
        .ok (none, credentials)

/-! ## Generation tool single-use guards
(src/lib/agent/tools/video-generation.ts, image-generation.ts)

Each generation tool instance carries a private `used` flag, set on the
first real invocation; later calls return a fixed placeholder JSON noting
the tool was already used and perform no network request. The external
API responses are environment-supplied; the adapters' response-shape
normalization is outside this claim. Each call below returns the result,
the updated flag, and whether the external generation service was
contacted. -/

structure ReplicatePrediction where
  id : String
  status : String
  outputUrl : Option String
deriving DecidableEq, Repr

structure VideoInput where
  prompt : Option String
  predictionId : Option String
  duration : Nat
  size : String
deriving DecidableEq, Repr

inductive VideoResult where
  | alreadyUsed
  | poll (predictionId : String) (status : String) (videoUrl : Option String)
  | start (predictionId : String) (status : String) (videoUrl : Option String)
deriving DecidableEq, Repr

structure VideoEnv where
  prediction : ReplicatePrediction
deriving DecidableEq, Repr

/-- GenerateReplicateVideoTool._call: the guard, then either the poll flow
(an existing prediction id) or the start flow. -/
def videoToolCall (used : Bool) (input : VideoInput) (env : VideoEnv) :
    VideoResult × Bool × Bool :=
  if used then (.alreadyUsed, used, false)
  else
    match input.predictionId with
    | some _ =>
        (.poll env.prediction.id env.prediction.status env.prediction.outputUrl, true, true)
    | none =>
        (.start env.prediction.id env.prediction.status env.prediction.outputUrl, true, true)

/-- The calls made on one tool instance within a single agent run, in order;
each output pairs the result with whether the external API was contacted. -/
def videoToolRun (used : Bool) : List (VideoInput × VideoEnv) → List (VideoResult × Bool)
  | [] => []
  | (i, e) :: rest =>
      match videoToolCall used i e with
      | (r, u, api) => (r, api) :: videoToolRun u rest

structure ImageInput where
  prompt : String
  count : Option Nat
  size : Option String
deriving DecidableEq, Repr

structure OpenAIImageEnv where
  ok : Bool
  images : List (Option String)
  errorMessage : Option String
deriving DecidableEq, Repr

inductive ImageResult where
  | alreadyUsed
  | success (images : List (Option String))
  | threw (message : String)
deriving DecidableEq, Repr

/-- GenerateOpenAIImageTool._call: the guard, then the generations POST; a
non-ok response throws an Error carrying the upstream message when present. -/
def imageToolCall (used : Bool) (_input : ImageInput) (env : OpenAIImageEnv) :
    ImageResult × Bool × Bool :=
  if used then (.alreadyUsed, used, false)
  else if env.ok then (.success env.images, true, true)
  else (.threw (env.errorMessage.getD "Failed to generate image with OpenAI."), true, true)

def imageToolRun (used : Bool) : List (ImageInput × OpenAIImageEnv) → List (ImageResult × Bool)
  | [] => []
  | (i, e) :: rest =>
      match imageToolCall used i e with
      | (r, u, api) => (r, api) :: imageToolRun u rest

/-! ## Provider catalog and model selection (src/lib/providers/index.ts)

Only the identifiers of the catalog are semantically relevant (labels and
descriptions are presentation data). The route-level provider value is a
raw string: the chat row's provider column is cast, not validated, so the
handler embedding below carries providers as strings throughout. -/

/-- JS truthiness of a nullable string (undefined, null and the empty
string are falsy). -/
def jsTruthyOpt (o : Option String) : Bool :=
  match o with
  | none => false
  | some s => decide (s ≠ "")

def DEFAULT_PROVIDER_ID : String := "openai"

def DEFAULT_MODEL_ID : String := "gpt-4o"

structure ProviderGroupM where
  id : String
  models : List String
deriving DecidableEq, Repr

def PROVIDER_GROUPS : List ProviderGroupM :=
  [ { id := "openai"
      models :=
        [ "gpt-5.1-codex-max", "gpt-5.1-codex", "gpt-5.1", "gpt-5-pro", "gpt-5",
          "gpt-5-codex", "gpt-5-mini", "gpt-5-nano", "gpt-4o", "gpt-4o-mini",
          "o3-mini" ] },
    { id := "xai"
      models :=
        [ "grok-4-1-fast-reasoning", "grok-4-1-fast-non-reasoning",
          "grok-code-fast-1", "grok-2-vision-1212", "grok-2-image-1212" ] } ]

/-- normalizeModelSelection: falsy inputs fall back to the defaults; an
unknown provider falls back entirely; a known provider with an unknown
model selects that provider's first model. -/
def normalizeModelSelection (providerId modelId : Option String) : String × String :=
  if jsTruthyOpt providerId = false ∨ jsTruthyOpt modelId = false then
    (DEFAULT_PROVIDER_ID, DEFAULT_MODEL_ID)
  else
    match providerId, modelId with
    | some ps, some ms =>
      match PROVIDER_GROUPS.find? (fun g => g.id == ps) with
      | none => (DEFAULT_PROVIDER_ID, DEFAULT_MODEL_ID)
      | some g =>
        match g.models.find? (fun mid => mid == ms) with
        | none => (g.id, g.models.headD DEFAULT_MODEL_ID)
        | some mid => (g.id, mid)
    | _, _ => (DEFAULT_PROVIDER_ID, DEFAULT_MODEL_ID)

/-- resolveLanguageModel succeeds for openai always, for xai only when the
module-level xAI client was constructed (XAI_API_KEY truthy at load time),
and throws for every other provider string. -/
def resolveModelOk (xaiApiKey : Option String) (providerId : String) : Bool :=
  if providerId = "openai" then true
  else if providerId = "xai" then jsTruthyOpt xaiApiKey
  else false

/-! ## Agent eligibility (src/lib/agent/runtime.ts) -/

def AGENT_ALLOWED_PROVIDERS : List String := ["openai", "xai"]

/-- Character-wise ASCII lowercasing (the model of toLowerCase on the
ASCII-valued feature flag). -/
def lowerAscii (s : String) : String := String.mk (s.data.map Char.toLower)

/-- agentToolsEnabled: enabled unless AGENT_TOOLS_ENABLED is set to a
case-insensitive false. -/
def agentToolsEnabled (flag : Option String) : Bool :=
  match flag with
  | none => true
  | some v => decide (lowerAscii v ≠ "false")

/-- isAgentEligible over the environment values it reads; the xai branch
returns Boolean(XAI_API_KEY), that is the truthiness of the env var. -/
def isAgentEligible (flag xaiApiKey : Option String) (providerId : String) : Bool :=
  if ¬(agentToolsEnabled flag = true ∧ providerId ∈ AGENT_ALLOWED_PROVIDERS) then false
  else if providerId = "xai" then jsTruthyOpt xaiApiKey
  else true

/-- The specification's wording of eligibility, for comparison with the
source's isAgentEligible: the feature flag is enabled, the provider is in
the allow-list, and — for the provider requiring a secondary API key —
that key is configured. -/
def specAgentEligible (flag xaiApiKey : Option String) (providerId : String) : Prop :=
  agentToolsEnabled flag = true ∧ providerId ∈ AGENT_ALLOWED_PROVIDERS
    ∧ (providerId = "xai" → jsTruthyOpt xaiApiKey = true)

/-! ## Chat submission route (src/app/api/chat/[id]/route.ts, POST)

Request-body values are JS `any`; the carriers below cover the value
shapes the handler distinguishes. A part's `text` field is kept as an
optional string (a present non-string `text` is outside the carrier). -/

inductive JsContentPart where
  | nullish
  | str (s : String)
  | obj (type : Option String) (text : Option String)
deriving DecidableEq, Repr

inductive JsContent where
  | str (s : String)
  | arr (parts : List JsContentPart)
  | other
deriving DecidableEq, Repr

structure ReqMessage where
  id : Option String
  role : Option String
  content : Option JsContent
  parts : Option JsContent
deriving DecidableEq, Repr

/-- The messages field of the parsed body: absent/null, a non-array value,
or an array of messages. The first two fail the route's format check. -/
inductive BodyMessages where
  | absent
  | nonArray
  | arr (msgs : List ReqMessage)
deriving DecidableEq, Repr

structure ReqBody where
  messages : BodyMessages
  id : Option String
  provider : Option String
  model : Option String
deriving DecidableEq, Repr

structure SessionUser where
  id : String
  email : String
  name : Option String
deriving DecidableEq, Repr

/-- Array.prototype.find with the predicate p.type === two-single-quote
text: evaluating p.type on a null entry throws (error value), a string
entry has no type field, an object entry is compared on its type. Returns
the found part's text field. -/
def findTextPart : List JsContentPart → Except Unit (Option (Option String))
  | [] => .ok none
  | .nullish :: _ => .error ()
  | .str _ :: rest => findTextPart rest
  | .obj ty tx :: rest =>
      if ty = some "text" then .ok (some tx) else findTextPart rest

/-- Title derivation for a freshly created chat (route lines 102-112):
a string first-message content is truncated to 50 chars; an array content
is scanned for a text part whose text is truthy; anything else keeps the
default title. The error case propagates the thrown TypeError to the
surrounding catch. -/
def computeTitle (msgs : List ReqMessage) : Except Unit String :=
  match msgs.head? with
  | none => .ok "New Chat"
  | some m =>
    match m.content with
    | some (.str s) => .ok (s.take 50)
    | some (.arr ps) =>
      match findTextPart ps with
      | .error e => .error e
      | .ok none => .ok "New Chat"
      | .ok (some none) => .ok "New Chat"
      | .ok (some (some t)) => if t = "" then .ok "New Chat" else .ok (t.take 50)
    | some .other => .ok "New Chat"
    | none => .ok "New Chat"

/-- Outcome of the chat lookup/creation block: the read may throw, find a
row (with its provider and model columns), or miss; on a miss the create
itself may still throw after the normalized selection was assigned. -/
inductive ChatLookup where
  | threw
  | found (provider : String) (model : String)
  | notFound (createOk : Bool)
deriving DecidableEq, Repr

/-- Effects the handler performs, in order, beyond computing the response.
The user-record upkeep step (ensureUser) precedes body parsing and is not a
conversation-state effect, so it is not recorded. -/
inductive Effect where
  | createdChat (title provider model : String)
  | savedUserMsg
  | agentInvoked (messages : List (Option String × List String))
  | cachedVideo (url : String)
  | savedAgentMsg (finalText : String)
  | streamTextInvoked (messages : List (Option String × List String))
  | savedDirectMsg (text : String)
deriving DecidableEq, Repr

/-- The chat lookup/creation block (route lines 93-126): resolves the
effective provider and model ids and possibly creates the chat row; every
failure inside the block is caught and leaves the values assigned so far. -/
def chatStep (lookup : ChatLookup) (msgs : List ReqMessage)
    (reqProvider reqModel : Option String) : String × String × List Effect :=
  match lookup with
  | .threw => (DEFAULT_PROVIDER_ID, DEFAULT_MODEL_ID, [])
  | .found p m =>
      ((if p = "" then DEFAULT_PROVIDER_ID else p),
       (if m = "" then DEFAULT_MODEL_ID else m), [])
  | .notFound createOk =>
    match computeTitle msgs with
    | .error _ => (DEFAULT_PROVIDER_ID, DEFAULT_MODEL_ID, [])
    | .ok title =>
      match normalizeModelSelection reqProvider reqModel with
      | (pid, mid) =>
        (pid, mid, if createOk then [.createdChat title pid mid] else [])

/-! ### Message normalization (route lines 150-203) -/

/-- Character class of the mime-subtype segment of the scrub regex. -/
def isMimeChar (c : Char) : Bool :=
  c.isAlpha || c.isDigit || c = '.' || c = '+' || c = '-'

/-- Character class of the base64 segment of the scrub regex. -/
def isB64TextChar (c : Char) : Bool :=
  c.isAlpha || c.isDigit || c = '+' || c = '/' || c = '='

/-- Case-sensitive literal matcher returning the remainder. -/
def chompLit : List Char → List Char → Option (List Char)
  | [], cs => some cs
  | _ :: _, [] => none
  | p :: ps, c :: cs => if p = c then chompLit ps cs else none

/-- A greedy match of the inline-image regex at the head of the input,
returning the remainder after the match. Neither character class admits a
semicolon, so the greedy classes never backtrack. -/
def dataUrlMatchAt (cs : List Char) : Option (List Char) :=
  match chompLit "data:image/".data cs with
  | none => none
  | some r1 =>
    let mime := r1.takeWhile isMimeChar
    if mime.isEmpty then none
    else
      match chompLit ";base64,".data (r1.dropWhile isMimeChar) with
      | none => none
      | some r3 =>
        let b := r3.takeWhile isB64TextChar
        if b.isEmpty then none else some (r3.dropWhile isB64TextChar)

/-- Left-to-right global replacement scan; the fuel is the input length,
which bounds the number of iterations since every step consumes at least
one character. -/
def scrubGo : Nat → List Char → List Char
  | 0, cs => cs
  | _ + 1, [] => []
  | n + 1, c :: cs =>
    match dataUrlMatchAt (c :: cs) with
    | some rest => "[image]".data ++ scrubGo n rest
    | none => c :: scrubGo n cs

/-- text.replace of the global inline-image regex with the placeholder. -/
def replaceDataUrls (s : String) : String :=
  String.mk (scrubGo s.data.length s.data)

/-- scrubDataUrls of the route: empty (falsy) text short-circuits. -/
def scrubDataUrls (s : String) : String :=
  if s = "" then "" else replaceDataUrls s

/-- clampText with the default 500-char budget and an ellipsis suffix. -/
def clampText (s : String) : String :=
  if s.length ≤ 500 then s else s.take 500 ++ "…"

/-- A canonical text part is just its text (the type tag is always the
text tag); a canonical message keeps the inbound role value as-is. -/
abbrev CoreMsg := Option String × List String

/-- One array element of normalizeToTextParts: null entries and object
entries without a string text map to null and are filtered out; the two
object branches of the source produce the same normalized part. -/
def partToText : JsContentPart → Option String
  | .nullish => none
  | .str s => some (clampText (scrubDataUrls s))
  | .obj _ tx =>
    match tx with
    | some t => some (clampText (scrubDataUrls t))
    | none => none

/-- normalizeToTextParts: a nonempty string becomes one scrubbed clamped
part; an array keeps its convertible parts when any survive; everything
else becomes a single empty text part. -/
def normalizeToTextParts (v : Option JsContent) : List String :=
  match v with
  | some (.str s) => if s.length > 0 then [clampText (scrubDataUrls s)] else [""]
  | some (.arr ps) =>
    let parts := ps.filterMap partToText
    if parts.isEmpty then [""] else parts
  | some .other => [""]
  | none => [""]

/-- The canonical messages sent to either model path: the most recent four
inbound messages, each flattened via parts-or-content normalization, with
a placeholder user message when the result is empty. -/
def normCore (msgs : List ReqMessage) : List CoreMsg :=
  let limited := msgs.drop (msgs.length - 4)
  let core := limited.map (fun m =>
    (m.role, normalizeToTextParts (match m.parts with | some p => some p | none => m.content)))
  if core.isEmpty then [(some "user", ["Hi"])] else core

/-! ### The POST handler -/

/-- Result of a successful runAgentWithTools call: the final assistant
text, the display text enqueued on the returned stream, and the video urls
its invocation log yields to the route's video-caching step. -/
structure AgentRunOutcome where
  finalText : String
  displayText : String
  videoUrls : List String
deriving DecidableEq, Repr

/-- Environment of one POST invocation: the env vars read, the database
outcomes, and the outcomes of the external calls the handler awaits. -/
structure PostEnv where
  agentToolsFlag : Option String
  xaiApiKey : Option String
  chatLookup : ChatLookup
  saveUserMsgOk : Bool
  agentOutcome : Except String AgentRunOutcome
  videoCacheOk : Bool
  saveAgentMsgOk : Bool
  directFinishText : Option String
deriving Repr

inductive PostResponse where
  | unauthorized
  | invalidMessages
  | modelUnavailable
  | agentStream (body : String)
  | directStream (messages : List CoreMsg)
  | serverError
deriving DecidableEq, Repr

/-- The direct streaming path (route lines 258-285): streamText on the
canonical messages; its onFinish callback persists the assistant text with
inline images scrubbed, when the stream finishes. -/
def directPath (env : PostEnv) (cm : List CoreMsg) : PostResponse × List Effect :=
  (.directStream cm,
    [.streamTextInvoked cm] ++
      (match env.directFinishText with
       | some t => [.savedDirectMsg (replaceDataUrls t)]
       | none => []))

/-- The agent path body (route lines 206-252): run the agent, best-effort
cache the first produced video onto the invocation log, persist the
assistant message, and answer with the runtime's byte stream. A rejection
of the runtime or of the persistence step is caught by the surrounding
catch, after which control falls through to the direct path. -/
def agentPath (env : PostEnv) (cm : List CoreMsg) : PostResponse × List Effect :=
  match env.agentOutcome with
  | .error _ =>
      match directPath env cm with
      | (resp, fx) => (resp, [.agentInvoked cm] ++ fx)
  | .ok r =>
    let videoFx : List Effect :=
      match r.videoUrls with
      | [] => []
      | u :: _ => if env.videoCacheOk then [.cachedVideo u] else []
    if env.saveAgentMsgOk then
      (.agentStream r.displayText,
        [.agentInvoked cm] ++ videoFx ++ [.savedAgentMsg r.finalText])
    else
      match directPath env cm with
      | (resp, fx) => (resp, [.agentInvoked cm] ++ videoFx ++ fx)

/-- The POST route handler, from authentication to the returned response,
together with the ordered conversation-state effects it performs. -/
def handlePOST (env : PostEnv) (session : Option SessionUser) (body : Option ReqBody) :
    PostResponse × List Effect :=
  match session with
  | none => (.unauthorized, [])
  | some su =>
    if su.id = "" ∨ su.email = "" then (.unauthorized, [])
    else
      match body with
      | none => (.serverError, [])
      | some b =>
        match b.messages with
        | .absent => (.invalidMessages, [])
        | .nonArray => (.invalidMessages, [])
        | .arr msgs =>
          match chatStep env.chatLookup msgs b.provider b.model with
          | (providerId, _modelId, chatFx) =>
            if resolveModelOk env.xaiApiKey providerId = false then
              (.modelUnavailable, chatFx)
            else
              let saveFx : List Effect :=
                match msgs.getLast? with
                | none => []
                | some _ => if env.saveUserMsgOk then [.savedUserMsg] else []
              let cm := normCore msgs
              let tail :=
                if isAgentEligible env.agentToolsFlag env.xaiApiKey providerId then
                  agentPath env cm
                else
                  directPath env cm
              (tail.1, chatFx ++ saveFx ++ tail.2)

/-! ## Conversation deletion (src/app/api/chat/[id]/route.ts DELETE,
src/lib/db/actions.ts, src/lib/db/schema.ts)

The relational store: users, chats, messages and cached videos, with
messages and videos cascading on chat deletion. -/

structure UserRow where
  id : String
  email : String
  name : String
deriving DecidableEq, Repr

structure ChatRowDb where
  id : String
  userId : String
  title : String
  provider : String
  model : String
deriving DecidableEq, Repr

structure MsgRow where
  id : String
  chatId : String
  role : String
  content : String
deriving DecidableEq, Repr

structure VideoRow where
  id : String
  chatId : String
  userId : String
  sourceUrl : String
deriving DecidableEq, Repr

structure DbState where
  users : List UserRow
  chats : List ChatRowDb
  messages : List MsgRow
  videos : List VideoRow
deriving DecidableEq, Repr

/-- ensureUser: match by id, then by email, else insert a fresh user row
(name falls back to Anonymous); returns the updated state and the resolved
user id. -/
def ensureUserDb (db : DbState) (su : SessionUser) : DbState × String :=
  match db.users.find? (fun r => r.id == su.id) with
  | some r => (db, r.id)
  | none =>
    match db.users.find? (fun r => r.email == su.email) with
    | some r => (db, r.id)
    | none =>
      let nm := match su.name with
        | some n => if n = "" then "Anonymous" else n
        | none => "Anonymous"
      ({ db with users := db.users ++ [⟨su.id, su.email, nm⟩] }, su.id)

/-- getChat: the first chat row matching both the chat id and the user id. -/
def getChatDb (db : DbState) (chatId userId : String) : Option ChatRowDb :=
  db.chats.find? (fun c => c.id == chatId && c.userId == userId)

/-- deleteChat plus the schema-level cascades: rows of the deleted chats
disappear from messages and videos. -/
def deleteChatDb (db : DbState) (chatId userId : String) : DbState :=
  let deleted := db.chats.filter (fun c => c.id == chatId && c.userId == userId)
  { db with
      chats := db.chats.filter (fun c => !(c.id == chatId && c.userId == userId))
      messages := db.messages.filter (fun m => !(deleted.any (fun c => c.id == m.chatId)))
      videos := db.videos.filter (fun v => !(deleted.any (fun c => c.id == v.chatId))) }

inductive DeleteResponse where
  | unauthorized
  | badRequest
  | notFound
  | success
deriving DecidableEq, Repr

/-- The DELETE route handler: authenticate, require a chat id, resolve the
user, 404 unless the chat is owned by the caller, else delete. -/
def handleDELETE (session : Option SessionUser) (chatIdParam : Option String)
    (db : DbState) : DeleteResponse × DbState :=
  match session with
  | none => (.unauthorized, db)
  | some su =>
    if su.id = "" ∨ su.email = "" then (.unauthorized, db)
    else
      match chatIdParam with
      | none => (.badRequest, db)
      | some cid =>
        if cid = "" then (.badRequest, db)
        else
          match ensureUserDb db su with
          | (db1, uid) =>
            match getChatDb db1 cid uid with
            | none => (.notFound, db1)
            | some _ => (.success, deleteChatDb db1 cid uid)

/-! # Theorems

## Image cache lemmas -/

theorem chompLitCI_self (p cs : List Char) : chompLitCI p (p ++ cs) = some cs := by
  induction p with
  | nil => rfl
  | cons c t ih => simp [chompLitCI, ih]

theorem takeWhile_middle {p : Char → Bool} (l : List Char) (x : Char) (r : List Char)
    (hl : ∀ c ∈ l, p c = true) (hx : p x = false) :
    (l ++ x :: r).takeWhile p = l ∧ (l ++ x :: r).dropWhile p = x :: r := by
  induction l with
  | nil => simp [List.takeWhile_cons, List.dropWhile_cons, hx]
  | cons c t ih =>
    have hc : p c = true := hl c (by simp)
    have ih' := ih (fun d hd => hl d (by simp [hd]))
    simp [List.takeWhile_cons, List.dropWhile_cons, hc, ih'.1, ih'.2]

theorem base64Char_fin_facts :
    ∀ m : Fin 64, base64Val (base64Char m.val) = some m.val ∧ base64Char m.val ≠ '=' := by
  decide

theorem base64Val_base64Char {n : Nat} (h : n < 64) : base64Val (base64Char n) = some n :=
  (base64Char_fin_facts ⟨n, h⟩).1

theorem base64Char_ne_pad {n : Nat} (h : n < 64) : base64Char n ≠ '=' :=
  (base64Char_fin_facts ⟨n, h⟩).2

theorem base64Char_shape (k : Nat) : base64Char k ≠ ';' ∧ isLineTerm (base64Char k) = false := by
  have halph : ∀ c ∈ base64Alphabet.data, c ≠ ';' ∧ isLineTerm c = false := by decide
  by_cases hk : k < base64Alphabet.data.length
  · have hck : base64Char k = base64Alphabet.data[k] := List.getD_eq_getElem _ _ hk
    rw [hck]
    exact halph _ (List.getElem_mem hk)
  · have hck : base64Char k = ' ' := List.getD_eq_default _ _ (Nat.le_of_not_lt hk)
    rw [hck]
    exact ⟨by decide, by decide⟩

theorem encodeChars_shape : ∀ bs : List Nat, ∀ c ∈ encodeBase64Chars bs,
    c = '=' ∨ ∃ k, c = base64Char k
  | [], c, hc => by simp [encodeBase64Chars] at hc
  | [x], c, hc => by
      simp only [encodeBase64Chars, List.mem_cons, List.not_mem_nil, or_false] at hc
      rcases hc with rfl | rfl | rfl | rfl
      · exact Or.inr ⟨x / 4, rfl⟩
      · exact Or.inr ⟨x % 4 * 16, rfl⟩
      · exact Or.inl rfl
      · exact Or.inl rfl
  | [x, y], c, hc => by
      simp only [encodeBase64Chars, List.mem_cons, List.not_mem_nil, or_false] at hc
      rcases hc with rfl | rfl | rfl | rfl
      · exact Or.inr ⟨x / 4, rfl⟩
      · exact Or.inr ⟨x % 4 * 16 + y / 16, rfl⟩
      · exact Or.inr ⟨y % 16 * 4, rfl⟩
      · exact Or.inl rfl
  | x :: y :: z :: rest, c, hc => by
      simp only [encodeBase64Chars, List.mem_cons] at hc
      rcases hc with rfl | rfl | rfl | rfl | hmem
      · exact Or.inr ⟨x / 4, rfl⟩
      · exact Or.inr ⟨x % 4 * 16 + y / 16, rfl⟩
      · exact Or.inr ⟨y % 16 * 4 + z / 64, rfl⟩
      · exact Or.inr ⟨z % 64, rfl⟩
      · exact encodeChars_shape rest c (by simpa using hmem)

theorem encodeChars_props (bs : List Nat) :
    ∀ c ∈ encodeBase64Chars bs, c ≠ ';' ∧ isLineTerm c = false := by
  intro c hc
  rcases encodeChars_shape bs c hc with rfl | ⟨k, rfl⟩
  · exact ⟨by decide, by decide⟩
  · exact base64Char_shape k

theorem encodeChars_ne_nil : ∀ bs : List Nat, bs ≠ [] → encodeBase64Chars bs ≠ []
  | [], h => absurd rfl h
  | [_], _ => by simp [encodeBase64Chars]
  | [_, _], _ => by simp [encodeBase64Chars]
  | _ :: _ :: _ :: _, _ => by simp [encodeBase64Chars]

theorem decode_encode : ∀ bs : List Nat, (∀ b ∈ bs, b < 256) →
    nodeBase64Decode (encodeBase64 bs) = bs
  | [], _ => rfl
  | [x], h => by
      have hx : x < 256 := h x (by simp)
      have h1 : x / 4 < 64 := by omega
      have h2 : x % 4 * 16 < 64 := by omega
      simp [nodeBase64Decode, encodeBase64, encodeBase64Chars, List.takeWhile_cons,
        List.filterMap_cons, base64Val_base64Char h1, base64Val_base64Char h2,
        base64Char_ne_pad h1, base64Char_ne_pad h2, decodeGroups]
      omega
  | [x, y], h => by
      have hx : x < 256 := h x (by simp)
      have hy : y < 256 := h y (by simp)
      have h1 : x / 4 < 64 := by omega
      have h2 : x % 4 * 16 + y / 16 < 64 := by omega
      have h3 : y % 16 * 4 < 64 := by omega
      simp [nodeBase64Decode, encodeBase64, encodeBase64Chars, List.takeWhile_cons,
        List.filterMap_cons, base64Val_base64Char h1, base64Val_base64Char h2,
        base64Val_base64Char h3, base64Char_ne_pad h1, base64Char_ne_pad h2,
        base64Char_ne_pad h3, decodeGroups]
      constructor
      · omega
      · omega
  | x :: y :: z :: rest, h => by
      have hx : x < 256 := h x (by simp)
      have hy : y < 256 := h y (by simp)
      have hz : z < 256 := h z (by simp)
      have h1 : x / 4 < 64 := by omega
      have h2 : x % 4 * 16 + y / 16 < 64 := by omega
      have h3 : y % 16 * 4 + z / 64 < 64 := by omega
      have h4 : z % 64 < 64 := by omega
      have ih := decode_encode rest (fun b hb => h b (by simp [hb]))
      simp only [nodeBase64Decode, encodeBase64] at ih ⊢
      simp [encodeBase64Chars, List.takeWhile_cons, base64Char_ne_pad h1,
        base64Char_ne_pad h2, base64Char_ne_pad h3, base64Char_ne_pad h4,
        List.filterMap_cons, base64Val_base64Char h1, base64Val_base64Char h2,
        base64Val_base64Char h3, base64Val_base64Char h4, decodeGroups,
        List.cons.injEq]
      exact ⟨by omega, by omega, by omega, by simpa using ih⟩

theorem matchImageDataUrl_wellformed (ct body : String)
    (hct1 : ct.data ≠ []) (hct2 : ∀ c ∈ ct.data, c ≠ ';')
    (hb1 : body.data ≠ []) (hb2 : ∀ c ∈ body.data, c ≠ ';' ∧ isLineTerm c = false) :
    matchImageDataUrl ("data:" ++ ct ++ ";base64," ++ body) = some (ct, body) := by
  have hdata : ("data:" ++ ct ++ ";base64," ++ body).data
      = "data:".data ++ (ct.data ++ (';' :: ("base64,".data ++ body.data))) := by
    simp [String.data_append]
  have hmid := takeWhile_middle (p := fun c => !decide (c = ';')) ct.data ';'
    ("base64,".data ++ body.data)
    (fun c hc => by simpa using hct2 c hc) (by decide)
  have hsemi : (';' :: ("base64,".data ++ body.data)) = ";base64,".data ++ body.data := rfl
  have hterm : body.data.any isLineTerm = false := by
    rw [List.any_eq_false]
    intro c hc
    simp [(hb2 c hc).2]
  unfold matchImageDataUrl
  rw [hdata, chompLitCI_self]
  simp only [ne_eq, decide_not]
  rw [hmid.1, hmid.2, hsemi, chompLitCI_self]
  simp [hct1, hb1, hterm, List.isEmpty_iff]

theorem findMap_set (c : ImageCache) (k : String) (v : ImageEntry) :
    (c.map (fun p => if p.1 = k then (k, v) else p)).find? (fun p => p.1 = k)
      = if c.any (fun p => p.1 = k) then some (k, v) else none := by
  induction c with
  | nil => simp
  | cons a t ih =>
    by_cases ha : a.1 = k
    · simp [ha, List.find?_cons]
    · have ha' : decide (a.1 = k) = false := by simp [ha]
      simp only [List.any_cons, ha', Bool.false_or]
      simp [List.find?_cons, ha, ih]

theorem find_append_last (c : ImageCache) (k : String) (v : ImageEntry)
    (h : c.any (fun p => p.1 = k) = false) :
    (c ++ [(k, v)]).find? (fun p => p.1 = k) = some (k, v) := by
  induction c with
  | nil => simp [List.find?_cons]
  | cons a t ih =>
    simp only [List.any_cons, Bool.or_eq_false_iff] at h
    have ha : ¬(a.1 = k) := by simpa using h.1
    simpa [List.find?_cons, ha] using ih h.2

theorem cacheFind_set_self (c : ImageCache) (k : String) (v : ImageEntry) :
    cacheFind (cacheSet c k v) k = some v := by
  unfold cacheSet cacheFind
  cases hany : c.any (fun p => p.1 = k) with
  | true =>
    rw [if_pos (show (true : Bool) = true from rfl), findMap_set, if_pos hany]
    rfl
  | false =>
    rw [if_neg (show ¬((false : Bool) = true) from by decide),
      find_append_last c k v hany]
    rfl

theorem findMap_other (c : ImageCache) (k k' : String) (v : ImageEntry) (hne : k' ≠ k) :
    (c.map (fun p => if p.1 = k then (k, v) else p)).find? (fun p => p.1 = k')
      = c.find? (fun p => p.1 = k') := by
  induction c with
  | nil => rfl
  | cons a t ih =>
    by_cases ha : a.1 = k
    · have hkk : ¬(k = k') := fun hh => hne hh.symm
      simp [ha, List.find?_cons, hkk, ih]
    · simp [ha, List.find?_cons, ih]

theorem find_append_other (c : ImageCache) (k k' : String) (v : ImageEntry) (hne : k' ≠ k) :
    (c ++ [(k, v)]).find? (fun p => p.1 = k') = c.find? (fun p => p.1 = k') := by
  induction c with
  | nil =>
    have hkk : ¬(k = k') := fun hh => hne hh.symm
    simp [List.find?_cons, hkk]
  | cons a t ih =>
    by_cases hpa : a.1 = k'
    · simp [List.find?_cons, hpa]
    · simp [List.find?_cons, hpa, ih]

theorem cacheFind_set_other (c : ImageCache) (k k' : String) (v : ImageEntry) (hne : k' ≠ k) :
    cacheFind (cacheSet c k v) k' = cacheFind c k' := by
  unfold cacheSet cacheFind
  cases hany : c.any (fun p => p.1 = k) with
  | true =>
    rw [if_pos (show (true : Bool) = true from rfl), findMap_other c k k' v hne]
  | false =>
    rw [if_neg (show ¬((false : Bool) = true) from by decide),
      find_append_other c k k' v hne]

/-- C4: for every well-formed base64 image data URL — a content type with
at least one character and no semicolon, and a base64 body canonically
encoding a nonempty byte payload — cacheDataUrl returns a non-null id, and
getCachedImage on that id yields exactly the decoded payload bytes and the
declared content type, unchanged. -/
theorem C4_cache_roundtrip (freshId : String) (cache : ImageCache) (ct : String) (bs : List Nat)
    (hct1 : ct.data ≠ []) (hct2 : ∀ c ∈ ct.data, c ≠ ';')
    (hbs1 : bs ≠ []) (hbs2 : ∀ b ∈ bs, b < 256) :
    (cacheDataUrl freshId cache ("data:" ++ ct ++ ";base64," ++ encodeBase64 bs)).1
        = some freshId
    ∧ getCachedImage
        (cacheDataUrl freshId cache ("data:" ++ ct ++ ";base64," ++ encodeBase64 bs)).2
        freshId = some ⟨bs, ct⟩ := by
  have hbody1 : (encodeBase64 bs).data ≠ [] := by
    simpa [encodeBase64] using encodeChars_ne_nil bs hbs1
  have hbody2 : ∀ c ∈ (encodeBase64 bs).data, c ≠ ';' ∧ isLineTerm c = false := by
    simpa [encodeBase64] using encodeChars_props bs
  have hm := matchImageDataUrl_wellformed ct (encodeBase64 bs) hct1 hct2 hbody1 hbody2
  have hctne : ¬(ct = "") := by
    intro hh
    exact hct1 (by simp [hh])
  unfold cacheDataUrl
  rw [hm]
  refine ⟨rfl, ?_⟩
  show cacheFind (cacheSet cache freshId _) freshId = _
  rw [cacheFind_set_self]
  simp [decode_encode bs hbs2, hctne]

/-- C4 witness: a concrete data URL for payload bytes 1, 2, 3 round-trips
through the cache. -/
theorem C4_cache_roundtrip_witness :
    (cacheDataUrl "img-1" [] ("data:" ++ "image/png" ++ ";base64," ++ encodeBase64 [1, 2, 3])).1
        = some "img-1"
    ∧ getCachedImage
        (cacheDataUrl "img-1" [] ("data:" ++ "image/png" ++ ";base64," ++ encodeBase64 [1, 2, 3])).2
        "img-1" = some ⟨[1, 2, 3], "image/png"⟩ :=
  C4_cache_roundtrip "img-1" [] "image/png" [1, 2, 3]
    (by decide) (by decide) (by decide) (by decide)

/-- C5: for every payload that does not match the data-URL shape,
cacheDataUrl returns null and leaves the cache unchanged; the decode-failure
wing of the claim is vacuous because Node's base64 decoder is total on
strings, so the embedded function throws on no input. -/
theorem C5_cache_malformed (freshId : String) (cache : ImageCache) (s : String)
    (h : matchImageDataUrl s = none) :
    cacheDataUrl freshId cache s = (none, cache) := by
  unfold cacheDataUrl
  rw [h]

/-- C5 witness: a concrete malformed payload is rejected without touching a
nonempty cache. -/
theorem C5_cache_malformed_witness :
    cacheDataUrl "img-2" [("old", ⟨[7], "image/gif"⟩)] "not a data url"
      = (none, [("old", ⟨[7], "image/gif"⟩)]) :=
  C5_cache_malformed "img-2" [("old", ⟨[7], "image/gif"⟩)] "not a data url" (by decide)

/-- C10: a cacheDataUrl call writes only under the supplied fresh id (the
freshness of randomUUID is the hypothesis that the id is unused), so the
entry of any id already in the cache is unchanged afterwards, whatever the
new payload is and whether or not it is accepted. -/
theorem C10_cache_frame (freshId prevId : String) (cache : ImageCache) (s : String)
    (e : ImageEntry)
    (hfresh : getCachedImage cache freshId = none)
    (hprev : getCachedImage cache prevId = some e) :
    getCachedImage (cacheDataUrl freshId cache s).2 prevId = some e := by
  have hne : prevId ≠ freshId := by
    intro hh
    rw [hh, hfresh] at hprev
    exact Option.noConfusion hprev
  unfold cacheDataUrl
  cases hm : matchImageDataUrl s with
  | none => simpa using hprev
  | some pr =>
    cases pr with
    | mk ctt bdy =>
      show getCachedImage (cacheSet cache freshId _) prevId = some e
      unfold getCachedImage at hprev ⊢
      rw [cacheFind_set_other cache freshId prevId _ hne]
      exact hprev

/-- C10 witness: caching a fresh concrete data URL leaves a previously
cached entry readable unchanged. -/
theorem C10_cache_frame_witness :
    getCachedImage
      (cacheDataUrl "new-id" [("old-id", ⟨[7], "image/gif"⟩)] "data:image/png;base64,AQID").2
      "old-id" = some ⟨[7], "image/gif"⟩ :=
  C10_cache_frame "new-id" "old-id" [("old-id", ⟨[7], "image/gif"⟩)]
    "data:image/png;base64,AQID" ⟨[7], "image/gif"⟩ (by decide) (by decide)

/-! ## Event relay lemmas -/

theorem find?_map_connId {E : Type} (l : List (RelaySub E)) (f : RelaySub E → RelaySub E)
    (hf : ∀ sub, (f sub).connId = sub.connId) (c : Nat) :
    (l.map f).find? (fun sub => sub.connId == c)
      = (l.find? (fun sub => sub.connId == c)).map f := by
  induction l with
  | nil => rfl
  | cons a t ih =>
    have hpa : ((f a).connId == c) = (a.connId == c) := by rw [hf a]
    cases ha : (a.connId == c) with
    | true => simp [List.find?_cons, hpa, ha]
    | false => simp [List.find?_cons, hpa, ha, ih]

theorem relayRun_tags {E : Type} (ops : List (RelayOp E)) (s : RelayState E) (c : Nat)
    (m : Nat) (hm : m ≤ s.pubSeq)
    (hinv : ∀ sub ∈ s.subs, sub.connId = c → ∀ p ∈ sub.received, m ≤ p.1) :
    ∀ sub ∈ (relayRun s ops).subs, sub.connId = c → ∀ p ∈ sub.received, m ≤ p.1 := by
  induction ops generalizing s with
  | nil => exact hinv
  | cons op rest ih =>
    show ∀ sub ∈ (relayRun (relayStep s op) rest).subs, _
    apply ih
    · cases op <;> simp [relayStep] <;> omega
    · cases op with
      | subscribe c' cid =>
        intro sub hsub hc p hp
        simp only [relayStep, List.mem_append, List.mem_singleton] at hsub
        rcases hsub with h | h
        · exact hinv sub h hc p hp
        · subst h; simp at hp
      | publish cid ev =>
        intro sub hsub hc p hp
        simp only [relayStep, List.mem_map] at hsub
        obtain ⟨sub0, hsub0, rfl⟩ := hsub
        by_cases hcond : sub0.chatId = cid ∧ sub0.closed = false
        · rw [if_pos hcond] at hc hp
          simp only [List.mem_append, List.mem_singleton] at hp
          rcases hp with hp | hp
          · exact hinv sub0 hsub0 hc p hp
          · subst hp; exact hm
        · rw [if_neg hcond] at hc hp
          exact hinv sub0 hsub0 hc p hp
      | cancel c' =>
        intro sub hsub hc p hp
        simp only [relayStep, List.mem_map] at hsub
        obtain ⟨sub0, hsub0, rfl⟩ := hsub
        by_cases hcond : sub0.connId = c'
        · rw [if_pos hcond] at hc hp
          exact hinv sub0 hsub0 hc p hp
        · rw [if_neg hcond] at hc hp
          exact hinv sub0 hsub0 hc p hp

/-- C3: publishing an event delivers it, tagged with the current publish
sequence number, to every connection subscribed (open) on that conversation
id at publish time; a connection not subscribed at publish time — in
particular one that subscribes during any later operations — never holds
that tag among its delivered events; and a publish with no open subscriber
on the id leaves every subscription state unchanged, so the event is lost
(no buffering or replay). -/
theorem C3_relay_delivery {E : Type} (s0 : RelayState E) (cid : String) (ev : E) :
    (∀ c sub, findSub s0 c = some sub → sub.chatId = cid → sub.closed = false →
        ∃ sub', findSub (relayStep s0 (.publish cid ev)) c = some sub'
          ∧ sub'.received = sub.received ++ [(s0.pubSeq, ev)])
    ∧ (∀ ops c, findSub (relayStep s0 (.publish cid ev)) c = none →
        ∀ sub' ∈ (relayRun (relayStep s0 (.publish cid ev)) ops).subs,
          sub'.connId = c → ∀ p ∈ sub'.received, p.1 ≠ s0.pubSeq)
    ∧ ((∀ sub ∈ s0.subs, sub.chatId = cid → sub.closed = true) →
        (relayStep s0 (.publish cid ev)).subs = s0.subs) := by
  refine ⟨?_, ?_, ?_⟩
  · intro c sub hfind hchat hopen
    have hf : ∀ t : RelaySub E,
        ((fun t => if t.chatId = cid ∧ t.closed = false then
            { t with received := t.received ++ [(s0.pubSeq, ev)] }
          else t) t).connId = t.connId := by
      intro t
      by_cases h : t.chatId = cid ∧ t.closed = false <;> simp [h]
    refine ⟨{ sub with received := sub.received ++ [(s0.pubSeq, ev)] }, ?_, rfl⟩
    have hstep : findSub (relayStep s0 (.publish cid ev)) c
        = (s0.subs.find? (fun t => t.connId == c)).map
            (fun t => if t.chatId = cid ∧ t.closed = false then
              { t with received := t.received ++ [(s0.pubSeq, ev)] } else t) :=
      find?_map_connId s0.subs _ hf c
    have hfind' : s0.subs.find? (fun t => t.connId == c) = some sub := hfind
    rw [hstep, hfind']
    simp [hchat, hopen]
  · intro ops c hnone sub' hmem hc p hp
    have hge := relayRun_tags ops (relayStep s0 (.publish cid ev)) c (s0.pubSeq + 1)
      (by simp [relayStep]) ?_ sub' hmem hc p hp
    · omega
    · intro sub hsub hcc q hq
      have hnot := List.find?_eq_none.mp hnone sub hsub
      rw [hcc] at hnot
      simp at hnot
  · intro hclosed
    show s0.subs.map _ = s0.subs
    have hid : ∀ sub ∈ s0.subs,
        (if sub.chatId = cid ∧ sub.closed = false then
          { sub with received := sub.received ++ [(s0.pubSeq, ev)] }
        else sub) = sub := by
      intro sub hs
      by_cases hch : sub.chatId = cid
      · simp [hclosed sub hs hch]
      · simp [hch]
    calc s0.subs.map _ = s0.subs.map id := List.map_congr_left hid
    _ = s0.subs := List.map_id s0.subs

/-- C3 witness: one open subscriber on conversation c1 receives a published
event tagged 0; a connection subscribing after that publish only ever holds
later tags (its sole delivered event from a second publish is tagged 1, and
the theorem yields that this tag differs from 0); and a publish on a
conversation whose only listener is closed changes no subscription state. -/
theorem C3_relay_delivery_witness :
    ((findSub (relayStep (⟨[⟨1, "c1", false, []⟩], 0⟩ : RelayState AgentEventM)
          (.publish "c1" (.final (some "done") none))) 1).map
        (fun sub => sub.received))
      = some [(0, AgentEventM.final (some "done") none)]
    ∧ (1 : Nat) ≠ 0
    ∧ (relayStep (⟨[⟨3, "c2", true, []⟩], 5⟩ : RelayState AgentEventM)
        (.publish "c2" (.final none none))).subs = [⟨3, "c2", true, []⟩] := by
  have h := C3_relay_delivery (E := AgentEventM) ⟨[⟨1, "c1", false, []⟩], 0⟩ "c1"
    (.final (some "done") none)
  refine ⟨?_, ?_, ?_⟩
  · obtain ⟨sub', hfind, hrec⟩ := h.1 1 ⟨1, "c1", false, []⟩ rfl rfl rfl
    rw [hfind]
    simp [hrec]
  · exact h.2.1 [RelayOp.subscribe 2 "c1", RelayOp.publish "c1" (.final none none)] 2
      rfl ⟨2, "c1", false, [(1, AgentEventM.final none none)]⟩ (by decide) rfl
      (1, AgentEventM.final none none) (by decide)
  · exact (C3_relay_delivery (E := AgentEventM) ⟨[⟨3, "c2", true, []⟩], 5⟩ "c2"
      (.final none none)).2.2 (by decide)

/-! ## OAuth token theorems -/

/-- C7: for a user row with a stored access token and a stored expiry,
getValidGoogleAccessToken (a) returns the stored credentials with no
database write when the expiry is later than now plus the two-minute
buffer; (b) when the expiry is within the buffer and the refresh token is
missing, raises a GoogleAuthError, distinguishable by construction from
other tool errors; and (c) when the expiry is within the buffer and a
refresh token, client credentials and a successful token-endpoint response
are available, persists the new access token, refresh token, expiry and
scopes onto the user row and returns credentials that mirror exactly the
persisted row. -/
theorem C7_google_token (now : Int) (env : RefreshEnv) (row : GoogleTokenRow)
    (tok : String) (e : Int)
    (hacc : row.googleAccessToken = some tok)
    (hexp : row.googleTokenExpiresAt = some e) :
    (now + TOKEN_REFRESH_BUFFER_MS < e →
        getValidGoogleAccessToken now env (some row) = .ok (none, credentialsOfRow row))
    ∧ (e ≤ now + TOKEN_REFRESH_BUFFER_MS → row.googleRefreshToken = none →
        getValidGoogleAccessToken now env (some row)
          = .error (.googleAuth "Google account is missing a refresh token. Please reconnect."))
    ∧ (∀ rtok cid csec body,
        e ≤ now + TOKEN_REFRESH_BUFFER_MS →
        row.googleRefreshToken = some rtok →
        env = ⟨some cid, some csec, .ok body⟩ →
        ∃ newRow : GoogleTokenRow,
          getValidGoogleAccessToken now env (some row) = .ok (some newRow, credentialsOfRow newRow)
          ∧ newRow.googleAccessToken = some body.access_token
          ∧ newRow.googleRefreshToken = some (body.refresh_token.getD rtok)
          ∧ newRow.googleTokenExpiresAt
              = (match body.expires_in with
                 | none => none
                 | some d => if d = 0 then none else some (now + d * 1000))) := by
  refine ⟨?_, ?_, ?_⟩
  · intro hlt
    have hsoon : tokenIsExpiringSoon now (credentialsOfRow row).expiresAt = false := by
      simp [tokenIsExpiringSoon, credentialsOfRow, hexp]
      omega
    simp [getValidGoogleAccessToken, credentialsOfRow, hacc, hexp] at hsoon ⊢
    simp [hsoon]
  · intro hle hrt
    have hsoon : tokenIsExpiringSoon now (credentialsOfRow row).expiresAt = true := by
      simp [tokenIsExpiringSoon, credentialsOfRow, hexp]
      omega
    simp [getValidGoogleAccessToken, credentialsOfRow, hacc, hexp] at hsoon ⊢
    simp [hsoon, refreshGoogleAccessToken, hrt]
  · intro rtok cid csec body hle hrt henv
    have hsoon : tokenIsExpiringSoon now (credentialsOfRow row).expiresAt = true := by
      simp [tokenIsExpiringSoon, credentialsOfRow, hexp]
      omega
    refine ⟨{ row with
        googleAccessToken := some body.access_token
        googleRefreshToken := some (body.refresh_token.getD rtok)
        googleTokenExpiresAt :=
          (match body.expires_in with
           | none => none
           | some d => if d = 0 then none else some (now + d * 1000))
        googleScopes :=
          (match body.scope with
           | some s => some s
           | none => row.googleScopes) }, ?_, rfl, rfl, rfl⟩
    simp [getValidGoogleAccessToken, credentialsOfRow, hacc, hexp] at hsoon ⊢
    simp [hsoon, refreshGoogleAccessToken, hrt, henv, credentialsOfRow]

/-- C7 witness: a still-fresh token is returned unchanged; an expiring
token with no refresh token raises the auth error; an expiring token with
a refresh token is refreshed and the new values are persisted. -/
theorem C7_google_token_witness :
    (getValidGoogleAccessToken 0 ⟨some "id", some "secret", .error "x"⟩
        (some ⟨"u1", some "tok", some "rt", some 1000000, none⟩)
      = .ok (none, ⟨some "tok", some "rt", some 1000000, none⟩))
    ∧ (getValidGoogleAccessToken 0 ⟨some "id", some "secret", .error "x"⟩
        (some ⟨"u2", some "tok", none, some 1000, none⟩)
      = .error (.googleAuth "Google account is missing a refresh token. Please reconnect."))
    ∧ (∃ newRow : GoogleTokenRow,
        getValidGoogleAccessToken 0
          ⟨some "id", some "secret", .ok ⟨"fresh-tok", some 3600, some "cal", none⟩⟩
          (some ⟨"u3", some "tok", some "rt", some 1000, none⟩)
          = .ok (some newRow, credentialsOfRow newRow)
        ∧ newRow.googleAccessToken = some "fresh-tok"
        ∧ newRow.googleRefreshToken = some "rt"
        ∧ newRow.googleTokenExpiresAt = some 3600000) := by
  refine ⟨?_, ?_, ?_⟩
  · exact (C7_google_token 0 ⟨some "id", some "secret", .error "x"⟩
      ⟨"u1", some "tok", some "rt", some 1000000, none⟩ "tok" 1000000 rfl rfl).1 (by norm_num [TOKEN_REFRESH_BUFFER_MS])
  · exact (C7_google_token 0 ⟨some "id", some "secret", .error "x"⟩
      ⟨"u2", some "tok", none, some 1000, none⟩ "tok" 1000 rfl rfl).2.1 (by norm_num [TOKEN_REFRESH_BUFFER_MS]) rfl
  · obtain ⟨newRow, hrun, hacc, hrt, hexp⟩ :=
      (C7_google_token 0 ⟨some "id", some "secret",
          .ok ⟨"fresh-tok", some 3600, some "cal", none⟩⟩
        ⟨"u3", some "tok", some "rt", some 1000, none⟩ "tok" 1000 rfl rfl).2.2
        "rt" "id" "secret" ⟨"fresh-tok", some 3600, some "cal", none⟩ (by norm_num [TOKEN_REFRESH_BUFFER_MS]) rfl rfl
    exact ⟨newRow, hrun, hacc, by simpa using hrt, by norm_num [hexp]⟩

/-! ## Generation tool single-use theorems -/

theorem videoToolRun_used (ins : List (VideoInput × VideoEnv)) :
    videoToolRun true ins = ins.map (fun _ => (VideoResult.alreadyUsed, false)) := by
  induction ins with
  | nil => rfl
  | cons ie rest ih =>
    cases ie with
    | mk i e => simp [videoToolRun, videoToolCall, ih]

theorem imageToolRun_used (ins : List (ImageInput × OpenAIImageEnv)) :
    imageToolRun true ins = ins.map (fun _ => (ImageResult.alreadyUsed, false)) := by
  induction ins with
  | nil => rfl
  | cons ie rest ih =>
    cases ie with
    | mk i e => simp [imageToolRun, imageToolCall, ih]

/-- C6: within one agent run (one tool instance, flag initially unset), the
video tool and the image tool each contact their external generation API at
most once across any sequence of calls, and every call after the first
returns the already-used placeholder without contacting the service. -/
theorem C6_generation_single_use (vins : List (VideoInput × VideoEnv))
    (iins : List (ImageInput × OpenAIImageEnv)) :
    ((videoToolRun false vins).countP (fun r => r.2) ≤ 1
      ∧ ∀ r ∈ (videoToolRun false vins).drop 1,
          r.1 = VideoResult.alreadyUsed ∧ r.2 = false)
    ∧ ((imageToolRun false iins).countP (fun r => r.2) ≤ 1
      ∧ ∀ r ∈ (imageToolRun false iins).drop 1,
          r.1 = ImageResult.alreadyUsed ∧ r.2 = false) := by
  constructor
  · cases vins with
    | nil => simp [videoToolRun]
    | cons ie rest =>
      cases ie with
      | mk i e =>
        have hrun : videoToolRun false ((i, e) :: rest)
            = ((videoToolCall false i e).1, true)
              :: rest.map (fun _ => (VideoResult.alreadyUsed, false)) := by
          cases hpi : i.predictionId <;>
            simp [videoToolRun, videoToolCall, hpi, videoToolRun_used]
        have hcount : (rest.map (fun _ => (VideoResult.alreadyUsed, false))).countP
            (fun r : VideoResult × Bool => r.2) = 0 := by
          rw [List.countP_eq_zero]
          intro a ha
          rw [List.mem_map] at ha
          obtain ⟨x, _, rfl⟩ := ha
          simp
        rw [hrun]
        refine ⟨?_, ?_⟩
        · simp [List.countP_cons, hcount]
        · intro r hr
          simp only [List.drop_succ_cons, List.drop_zero, List.mem_map] at hr
          obtain ⟨x, _, rfl⟩ := hr
          exact ⟨rfl, rfl⟩
  · cases iins with
    | nil => simp [imageToolRun]
    | cons ie rest =>
      cases ie with
      | mk i e =>
        have hrun : imageToolRun false ((i, e) :: rest)
            = ((imageToolCall false i e).1, true)
              :: rest.map (fun _ => (ImageResult.alreadyUsed, false)) := by
          by_cases hok : e.ok = true <;>
            simp [imageToolRun, imageToolCall, hok, imageToolRun_used]
        have hcount : (rest.map (fun _ => (ImageResult.alreadyUsed, false))).countP
            (fun r : ImageResult × Bool => r.2) = 0 := by
          rw [List.countP_eq_zero]
          intro a ha
          rw [List.mem_map] at ha
          obtain ⟨x, _, rfl⟩ := ha
          simp
        rw [hrun]
        refine ⟨?_, ?_⟩
        · simp [List.countP_cons, hcount]
        · intro r hr
          simp only [List.drop_succ_cons, List.drop_zero, List.mem_map] at hr
          obtain ⟨x, _, rfl⟩ := hr
          exact ⟨rfl, rfl⟩

/-- C6 witness: two consecutive calls on each freshly constructed tool
instance make exactly one external invocation, and the second call is the
already-used placeholder without an API contact. -/
theorem C6_generation_single_use_witness :
    (videoToolRun false
        [(⟨some "an ocean sunset", none, 5, "1280*720"⟩, ⟨⟨"p1", "succeeded", some "u"⟩⟩),
         (⟨some "an ocean sunset", none, 5, "1280*720"⟩, ⟨⟨"p1", "succeeded", some "u"⟩⟩)]).countP
        (fun r => r.2) ≤ 1
    ∧ ((VideoResult.alreadyUsed, false) : VideoResult × Bool).1 = VideoResult.alreadyUsed
    ∧ ((VideoResult.alreadyUsed, false) : VideoResult × Bool).2 = false
    ∧ (imageToolRun false
        [(⟨"a quiet forest", none, none⟩, ⟨true, [some "url"], none⟩),
         (⟨"a quiet forest", none, none⟩, ⟨true, [some "url"], none⟩)]).countP
        (fun r => r.2) ≤ 1
    ∧ ((ImageResult.alreadyUsed, false) : ImageResult × Bool).1 = ImageResult.alreadyUsed
    ∧ ((ImageResult.alreadyUsed, false) : ImageResult × Bool).2 = false := by
  have h := C6_generation_single_use
    [(⟨some "an ocean sunset", none, 5, "1280*720"⟩, ⟨⟨"p1", "succeeded", some "u"⟩⟩),
     (⟨some "an ocean sunset", none, 5, "1280*720"⟩, ⟨⟨"p1", "succeeded", some "u"⟩⟩)]
    [(⟨"a quiet forest", none, none⟩, ⟨true, [some "url"], none⟩),
     (⟨"a quiet forest", none, none⟩, ⟨true, [some "url"], none⟩)]
  have hv := h.1.2 (VideoResult.alreadyUsed, false) (by decide)
  have hi := h.2.2 (ImageResult.alreadyUsed, false) (by decide)
  exact ⟨h.1.1, hv.1, hv.2, h.2.1, hi.1, hi.2⟩

/-! ## Conversation deletion theorems -/

theorem ensureUserDb_frame (db : DbState) (su : SessionUser) :
    (ensureUserDb db su).1.chats = db.chats
    ∧ (ensureUserDb db su).1.messages = db.messages
    ∧ (ensureUserDb db su).1.videos = db.videos := by
  unfold ensureUserDb
  split
  · exact ⟨rfl, rfl, rfl⟩
  · split
    · exact ⟨rfl, rfl, rfl⟩
    · exact ⟨rfl, rfl, rfl⟩

/-- C8: a DELETE by an authenticated caller on an existing conversation
owned by a different user answers 404, and the stored chats, messages and
cached videos are all left exactly as they were (only the user-record
upkeep step may touch the users table). -/
theorem C8_delete_not_owner (su : SessionUser) (cid : String) (db : DbState)
    (hsu1 : su.id ≠ "") (hsu2 : su.email ≠ "") (hcid : cid ≠ "")
    (_hex : ∃ c ∈ db.chats, c.id = cid)
    (hno : ∀ c ∈ db.chats, c.id = cid → c.userId ≠ (ensureUserDb db su).2) :
    handleDELETE (some su) (some cid) db = (.notFound, (ensureUserDb db su).1)
    ∧ (ensureUserDb db su).1.chats = db.chats
    ∧ (ensureUserDb db su).1.messages = db.messages
    ∧ (ensureUserDb db su).1.videos = db.videos := by
  have hframe := ensureUserDb_frame db su
  cases hE : ensureUserDb db su with
  | mk db1 uid =>
    rw [hE] at hframe hno
    simp only at hframe hno ⊢
    have hfind : getChatDb db1 cid uid = none := by
      unfold getChatDb
      rw [hframe.1]
      apply List.find?_eq_none.mpr
      intro c hc
      simp only [Bool.and_eq_true, beq_iff_eq, not_and]
      intro h1 h2
      exact hno c hc h1 h2
    refine ⟨?_, hframe.1, hframe.2.1, hframe.2.2⟩
    unfold handleDELETE
    simp [hE, hsu1, hsu2, hcid, hfind]

/-- C8 witness: a concrete store with one conversation owned by alice,
deleted by the authenticated caller bob, answers 404 with chats, messages
and videos untouched. -/
theorem C8_delete_not_owner_witness :
    handleDELETE (some ⟨"bob", "bob@x.com", some "Bob"⟩) (some "c1")
        ⟨[⟨"alice", "alice@x.com", "Alice"⟩, ⟨"bob", "bob@x.com", "Bob"⟩],
         [⟨"c1", "alice", "Title", "openai", "gpt-4o"⟩],
         [⟨"m1", "c1", "user", "hi"⟩],
         [⟨"v1", "c1", "alice", "http://v"⟩]⟩
      = (.notFound,
          (ensureUserDb
            ⟨[⟨"alice", "alice@x.com", "Alice"⟩, ⟨"bob", "bob@x.com", "Bob"⟩],
             [⟨"c1", "alice", "Title", "openai", "gpt-4o"⟩],
             [⟨"m1", "c1", "user", "hi"⟩],
             [⟨"v1", "c1", "alice", "http://v"⟩]⟩
            ⟨"bob", "bob@x.com", some "Bob"⟩).1)
    ∧ (ensureUserDb
        ⟨[⟨"alice", "alice@x.com", "Alice"⟩, ⟨"bob", "bob@x.com", "Bob"⟩],
         [⟨"c1", "alice", "Title", "openai", "gpt-4o"⟩],
         [⟨"m1", "c1", "user", "hi"⟩],
         [⟨"v1", "c1", "alice", "http://v"⟩]⟩
        ⟨"bob", "bob@x.com", some "Bob"⟩).1.chats
      = [⟨"c1", "alice", "Title", "openai", "gpt-4o"⟩] := by
  have h := C8_delete_not_owner ⟨"bob", "bob@x.com", some "Bob"⟩ "c1"
    ⟨[⟨"alice", "alice@x.com", "Alice"⟩, ⟨"bob", "bob@x.com", "Bob"⟩],
     [⟨"c1", "alice", "Title", "openai", "gpt-4o"⟩],
     [⟨"m1", "c1", "user", "hi"⟩],
     [⟨"v1", "c1", "alice", "http://v"⟩]⟩
    (by decide) (by decide) (by decide) (by decide) (by decide)
  exact ⟨h.1, h.2.1⟩

/-! ## Chat submission routing theorems -/

theorem eligible_resolveOk (flag key : Option String) (pid : String)
    (h : isAgentEligible flag key pid = true) : resolveModelOk key pid = true := by
  unfold isAgentEligible at h
  by_cases hc : agentToolsEnabled flag = true ∧ pid ∈ AGENT_ALLOWED_PROVIDERS
  · rw [if_neg (not_not_intro hc)] at h
    have hmem := hc.2
    simp only [AGENT_ALLOWED_PROVIDERS, List.mem_cons, List.not_mem_nil, or_false] at hmem
    rcases hmem with rfl | rfl
    · simp [resolveModelOk]
    · rw [if_pos rfl] at h
      simp [resolveModelOk, h]
  · rw [if_pos hc] at h
    exact absurd h (by simp)

/-- C1: when the resolved provider is agent-eligible and the agent runtime
invocation rejects, the handler does not fail the request: the agent
runtime was invoked on the normalized messages, and the response is the
direct-stream response built from those same normalized messages. -/
theorem C1_agent_fallback (env : PostEnv) (su : SessionUser) (b : ReqBody)
    (msgs : List ReqMessage) (err : String)
    (hsu1 : su.id ≠ "") (hsu2 : su.email ≠ "")
    (hmsgs : b.messages = .arr msgs)
    (helig : isAgentEligible env.agentToolsFlag env.xaiApiKey
        (chatStep env.chatLookup msgs b.provider b.model).1 = true)
    (hagent : env.agentOutcome = .error err) :
    (handlePOST env (some su) (some b)).1 = .directStream (normCore msgs)
    ∧ Effect.agentInvoked (normCore msgs) ∈ (handlePOST env (some su) (some b)).2
    ∧ Effect.streamTextInvoked (normCore msgs) ∈ (handlePOST env (some su) (some b)).2 := by
  have hres := eligible_resolveOk _ _ _ helig
  unfold handlePOST
  simp only [hmsgs, hsu1, hsu2, or_self, if_false]
  cases hcs : chatStep env.chatLookup msgs b.provider b.model with
  | mk providerId rest =>
    cases rest with
    | mk modelId chatFx =>
      rw [hcs] at helig
      simp only at helig
      have hres' : resolveModelOk env.xaiApiKey providerId = true := by
        have := eligible_resolveOk _ _ _ helig
        exact this
      simp [hres', helig, agentPath, directPath, hagent]

/-- C1 witness: with a default-enabled flag, an openai chat row and a
throwing agent runtime, a concrete request falls back to direct streaming
of the same normalized messages. -/
theorem C1_agent_fallback_witness :
    (handlePOST
        ⟨none, none, .found "openai" "gpt-4o", true, .error "boom", true, true, none⟩
        (some ⟨"u1", "u1@x.com", none⟩)
        (some ⟨.arr [⟨none, some "user", some (.str "Hello"), none⟩], some "c1", none, none⟩)).1
      = .directStream (normCore [⟨none, some "user", some (.str "Hello"), none⟩])
    ∧ Effect.agentInvoked (normCore [⟨none, some "user", some (.str "Hello"), none⟩])
        ∈ (handlePOST
            ⟨none, none, .found "openai" "gpt-4o", true, .error "boom", true, true, none⟩
            (some ⟨"u1", "u1@x.com", none⟩)
            (some ⟨.arr [⟨none, some "user", some (.str "Hello"), none⟩], some "c1", none, none⟩)).2 := by
  have h := C1_agent_fallback
    ⟨none, none, .found "openai" "gpt-4o", true, .error "boom", true, true, none⟩
    ⟨"u1", "u1@x.com", none⟩
    ⟨.arr [⟨none, some "user", some (.str "Hello"), none⟩], some "c1", none, none⟩
    [⟨none, some "user", some (.str "Hello"), none⟩] "boom"
    (by decide) (by decide) rfl (by decide) rfl
  exact ⟨h.1, h.2.1⟩

theorem chatStep_no_agent (lookup : ChatLookup) (msgs : List ReqMessage)
    (p m : Option String) (cm : List CoreMsg) :
    Effect.agentInvoked cm ∉ (chatStep lookup msgs p m).2.2 := by
  cases lookup with
  | threw => simp [chatStep]
  | found pp mm => simp [chatStep]
  | notFound createOk =>
    cases ht : computeTitle msgs with
    | error e => simp [chatStep, ht]
    | ok title =>
      cases hn : normalizeModelSelection p m with
      | mk pid mid =>
        cases createOk <;> simp [chatStep, ht, hn]

/-- C2 counterexample: with no XAI_API_KEY configured, a request resolving
to the xai provider is not agent-eligible, yet the handler does not fall
back to direct single-shot streaming — it fails with the model-unavailable
500 response — refuting the claim's second half as stated. -/
theorem C2_counterexample :
    isAgentEligible none none "xai" = false
    ∧ (handlePOST
        ⟨none, none, .found "xai" "grok-2-vision-1212", true, .error "x", true, true, none⟩
        (some ⟨"u1", "u1@x.com", none⟩)
        (some ⟨.arr [⟨none, some "user", some (.str "Hi there"), none⟩], some "c1", none, none⟩)).1
      = .modelUnavailable
    ∧ (handlePOST
        ⟨none, none, .found "xai" "grok-2-vision-1212", true, .error "x", true, true, none⟩
        (some ⟨"u1", "u1@x.com", none⟩)
        (some ⟨.arr [⟨none, some "user", some (.str "Hi there"), none⟩], some "c1", none, none⟩)).1
      ≠ .directStream (normCore [⟨none, some "user", some (.str "Hi there"), none⟩]) := by
  refine ⟨by decide, by decide, by decide⟩

/-- C2 amended: (a) a provider is agent-eligible exactly when the feature
flag is enabled, the provider is in the allow-list and, for xai, the
XAI_API_KEY is configured; (b) a request whose resolved provider is not
agent-eligible but whose model handle resolves is handled by direct
single-shot streaming with the agent runtime never invoked; (c) a request
resolving to xai without XAI_API_KEY is answered with the 500
model-unavailable response — not direct streaming — again without invoking
the agent runtime. -/
theorem C2_eligibility_routing :
    (∀ flag key pid, isAgentEligible flag key pid = true ↔ specAgentEligible flag key pid)
    ∧ (∀ env : PostEnv, ∀ su : SessionUser, ∀ b : ReqBody, ∀ msgs : List ReqMessage,
        su.id ≠ "" → su.email ≠ "" → b.messages = .arr msgs →
        isAgentEligible env.agentToolsFlag env.xaiApiKey
            (chatStep env.chatLookup msgs b.provider b.model).1 = false →
        resolveModelOk env.xaiApiKey (chatStep env.chatLookup msgs b.provider b.model).1 = true →
        (handlePOST env (some su) (some b)).1 = .directStream (normCore msgs)
        ∧ ∀ cm, Effect.agentInvoked cm ∉ (handlePOST env (some su) (some b)).2)
    ∧ (∀ env : PostEnv, ∀ su : SessionUser, ∀ b : ReqBody, ∀ msgs : List ReqMessage,
        su.id ≠ "" → su.email ≠ "" → b.messages = .arr msgs →
        (chatStep env.chatLookup msgs b.provider b.model).1 = "xai" →
        jsTruthyOpt env.xaiApiKey = false →
        (handlePOST env (some su) (some b)).1 = .modelUnavailable
        ∧ ∀ cm, Effect.agentInvoked cm ∉ (handlePOST env (some su) (some b)).2) := by
  refine ⟨?_, ?_, ?_⟩
  · intro flag key pid
    unfold isAgentEligible specAgentEligible
    by_cases hc : agentToolsEnabled flag = true ∧ pid ∈ AGENT_ALLOWED_PROVIDERS
    · rw [if_neg (not_not_intro hc)]
      by_cases hx : pid = "xai"
      · rw [if_pos hx]
        constructor
        · intro ht; exact ⟨hc.1, hc.2, fun _ => ht⟩
        · rintro ⟨_, _, h3⟩; exact h3 hx
      · rw [if_neg hx]
        constructor
        · intro _; exact ⟨hc.1, hc.2, fun hxx => absurd hxx hx⟩
        · intro _; rfl
    · rw [if_pos hc]
      constructor
      · intro hf; exact absurd hf (by simp)
      · rintro ⟨h1, h2, _⟩; exact absurd ⟨h1, h2⟩ hc
  · intro env su b msgs hsu1 hsu2 hmsgs hinelig hres
    have hnochat : ∀ cm, Effect.agentInvoked cm
        ∉ (chatStep env.chatLookup msgs b.provider b.model).2.2 :=
      fun cm => chatStep_no_agent env.chatLookup msgs b.provider b.model cm
    unfold handlePOST
    simp only [hmsgs, hsu1, hsu2, or_self, if_false]
    cases hcs : chatStep env.chatLookup msgs b.provider b.model with
    | mk providerId rest =>
      cases rest with
      | mk modelId chatFx =>
        rw [hcs] at hinelig hres hnochat
        simp only at hinelig hres hnochat
        constructor
        · simp [hres, hinelig, directPath]
        · intro cm
          have hc := hnochat cm
          cases hlast : msgs.getLast? <;> cases hfin : env.directFinishText <;>
            cases hsave : env.saveUserMsgOk <;>
            simp [hres, hinelig, directPath, hlast, hfin, hsave, hc]
  · intro env su b msgs hsu1 hsu2 hmsgs hpid hkey
    have hnochat : ∀ cm, Effect.agentInvoked cm
        ∉ (chatStep env.chatLookup msgs b.provider b.model).2.2 :=
      fun cm => chatStep_no_agent env.chatLookup msgs b.provider b.model cm
    unfold handlePOST
    simp only [hmsgs, hsu1, hsu2, or_self, if_false]
    cases hcs : chatStep env.chatLookup msgs b.provider b.model with
    | mk providerId rest =>
      cases rest with
      | mk modelId chatFx =>
        rw [hcs] at hpid hnochat
        simp only at hpid hnochat
        subst hpid
        have hres : resolveModelOk env.xaiApiKey "xai" = false := by
          simp [resolveModelOk, hkey]
        constructor
        · simp [hres]
        · intro cm
          have hc := hnochat cm
          simp [hres, hc]

/-- C2 witness: openai with the default flag is eligible by the spec
formula; a request with the flag opted out streams directly without the
agent; a request resolving to xai without the key gets the 500. -/
theorem C2_eligibility_routing_witness :
    isAgentEligible none none "openai" = true
    ∧ (handlePOST
        ⟨some "false", none, .found "openai" "gpt-4o", true, .error "x", true, true, none⟩
        (some ⟨"u1", "u1@x.com", none⟩)
        (some ⟨.arr [⟨none, some "user", some (.str "Hello"), none⟩], some "c1", none, none⟩)).1
      = .directStream (normCore [⟨none, some "user", some (.str "Hello"), none⟩])
    ∧ Effect.agentInvoked (normCore [⟨none, some "user", some (.str "Hello"), none⟩])
        ∉ (handlePOST
            ⟨some "false", none, .found "openai" "gpt-4o", true, .error "x", true, true, none⟩
            (some ⟨"u1", "u1@x.com", none⟩)
            (some ⟨.arr [⟨none, some "user", some (.str "Hello"), none⟩], some "c1", none, none⟩)).2
    ∧ (handlePOST
        ⟨none, none, .found "xai" "grok-2-vision-1212", true, .error "x", true, true, none⟩
        (some ⟨"u1", "u1@x.com", none⟩)
        (some ⟨.arr [⟨none, some "user", some (.str "Hello"), none⟩], some "c1", none, none⟩)).1
      = .modelUnavailable := by
  have h := C2_eligibility_routing
  have ha : isAgentEligible none none "openai" = true :=
    (h.1 none none "openai").mpr ⟨by decide, by decide, fun hx => absurd hx (by decide)⟩
  have hb := h.2.1
    ⟨some "false", none, .found "openai" "gpt-4o", true, .error "x", true, true, none⟩
    ⟨"u1", "u1@x.com", none⟩
    ⟨.arr [⟨none, some "user", some (.str "Hello"), none⟩], some "c1", none, none⟩
    [⟨none, some "user", some (.str "Hello"), none⟩]
    (by decide) (by decide) rfl (by decide) (by decide)
  have hcpart := h.2.2
    ⟨none, none, .found "xai" "grok-2-vision-1212", true, .error "x", true, true, none⟩
    ⟨"u1", "u1@x.com", none⟩
    ⟨.arr [⟨none, some "user", some (.str "Hello"), none⟩], some "c1", none, none⟩
    [⟨none, some "user", some (.str "Hello"), none⟩]
    (by decide) (by decide) rfl (by decide) (by decide)
  exact ⟨ha, hb.1, hb.2 (normCore [⟨none, some "user", some (.str "Hello"), none⟩]), hcpart.1⟩

/-- C9 counterexample: an empty message array passes the route's format
check — the handler does not answer 400 but proceeds (here to a direct
stream carrying the synthesized placeholder message), refuting the claim
that non-empty lists are validated. -/
theorem C9_counterexample :
    (handlePOST
        ⟨some "false", none, .notFound true, true, .error "x", true, true, none⟩
        (some ⟨"u1", "u1@x.com", none⟩)
        (some ⟨.arr [], some "c1", none, none⟩)).1 ≠ .invalidMessages
    ∧ (handlePOST
        ⟨some "false", none, .notFound true, true, .error "x", true, true, none⟩
        (some ⟨"u1", "u1@x.com", none⟩)
        (some ⟨.arr [], some "c1", none, none⟩)).1
      = .directStream [(some "user", ["Hi"])] := by
  refine ⟨by decide, by decide⟩

/-- C9 amended: the handler rejects a request whose parsed messages field
is missing or not an array with the 400 invalid-format response, performing
no conversation-state effect (no chat creation, no message write, no model
call); an empty message array, however, passes the check and the request
proceeds with a synthesized placeholder message. -/
theorem C9_validation (env : PostEnv) (su : SessionUser) (b : ReqBody)
    (hsu1 : su.id ≠ "") (hsu2 : su.email ≠ "")
    (hbad : b.messages = .absent ∨ b.messages = .nonArray) :
    handlePOST env (some su) (some b) = (.invalidMessages, []) := by
  unfold handlePOST
  rcases hbad with h | h <;> simp [h, hsu1, hsu2]

/-- C9 witness: a concrete request without a messages field is answered
with the 400 response and an empty effect trace. -/
theorem C9_validation_witness :
    handlePOST
        ⟨none, none, .notFound true, true, .error "x", true, true, none⟩
        (some ⟨"u1", "u1@x.com", none⟩)
        (some ⟨.absent, some "c1", none, none⟩)
      = (.invalidMessages, []) :=
  C9_validation
    ⟨none, none, .notFound true, true, .error "x", true, true, none⟩
    ⟨"u1", "u1@x.com", none⟩
    ⟨.absent, some "c1", none, none⟩
    (by decide) (by decide) (Or.inl rfl)
